import Mathlib

/-!
# Verification of the project-lighthouse thread-processing pipeline

Shallow embedding of the Python services in `backend/services/` —
`resolver.py` (identity extraction, entity resolution, idempotency gate),
`processor.py` (business-domain filtering, company/customer upserts) and
`analyzer.py` (mode selection, smart truncation, next-step dedup) — together
with theorems settling the specification claims about them.

Conventions of the embedding:
* Python strings are Lean `String` viewed as its list of characters, which
  matches Python's per-character `len`, slicing and `find` on the inputs the
  services handle.
* The record store is a list of rows per table; `maybe_single` queries are
  `List.find?`; inserts append a row whose fresh id is the current table
  length (ids are opaque to the services, only equality on them matters).
* Fallible remote calls are modelled on their success path; the claims under
  study are about the services' own logic, not about transport failures.
-/

namespace Lighthouse

/-! ## Python string primitives -/

/-- Python ASCII whitespace as stripped by `str.strip()`. -/
def pyIsSpace (c : Char) : Bool :=
  c = ' ' || c = '\t' || c = '\n' || c = '\x0d' || c = '\x0b' || c = '\x0c'

/-- Python `str.lower()` (ASCII case folding, which covers all inputs the
services compare: domain names and extracted descriptions). -/
def pyLower (s : String) : String := String.mk (s.data.map Char.toLower)

/-- Python `str.strip()`: remove leading and trailing whitespace. -/
def pyStrip (s : String) : String :=
  String.mk (((s.data.dropWhile pyIsSpace).reverse.dropWhile pyIsSpace).reverse)

/-- Python `c in s` membership test for a single character. -/
def strContains (s : String) (c : Char) : Bool := s.data.contains c

/-- Python `s.find(c)` for a character that is present: index of its first
occurrence (`List.indexOf` returns the length when absent, which the services
never rely on because they test membership first). -/
def firstIdx (s : String) (c : Char) : Nat := s.data.indexOf c

/-- Python slice `s[a:b]` for `0 ≤ a, b`: characters at indices `a..b-1`,
empty when `b ≤ a`, clamped at the end of the string. -/
def pySlice (s : String) (a b : Nat) : String := String.mk ((s.data.take b).drop a)

/-- Python `sep.join(parts)`. -/
def pyJoin (sep : String) : List String → String
  | [] => ""
  | [s] => s
  | s :: rest => s ++ sep ++ pyJoin sep rest

/-- Python `str.capitalize()`: first character upper-cased, the rest
lower-cased. -/
def pyCapitalize (s : String) : String :=
  match s.data with
  | [] => ""
  | c :: cs => String.mk (c.toUpper :: cs.map Char.toLower)

/-- Python `str.split(sep)` for a one-character separator: the (non-empty
list of) segments between occurrences of the separator, keeping empty
segments, as `split` does in CPython. -/
def pySplitChar (sep : Char) : List Char → List (List Char)
  | [] => [[]]
  | c :: cs =>
    if c = sep then [] :: pySplitChar sep cs
    else (c :: (pySplitChar sep cs).headD []) :: (pySplitChar sep cs).tail

/-- Python list slice `xs[-k:]`. For `k > 0` this is the last `min k n`
elements; for `k = 0` CPython evaluates `xs[-0:] = xs[0:]`, the whole list. -/
def pyTail (xs : List α) (k : Nat) : List α :=
  if k = 0 then xs else xs.drop (xs.length - k)

/-! ## Identity extraction (`resolver.py`)

`extract_email_from_address`, `extract_domain_from_email` and
`extract_local_part_from_email`, translated line by line.
-/

/-- `resolver.extract_email_from_address`: `None`/empty input gives `None`;
a string containing both `<` and `>` gives the stripped slice between the
first `<` and the first `>`; any other string is returned stripped. -/
def extract_email_from_address (address : Option String) : Option String :=
  match address with
  | none => none
  | some a =>
    if a = "" then none
    else if strContains a '<' && strContains a '>' then
      some (pyStrip (pySlice a (firstIdx a '<' + 1) (firstIdx a '>')))
    else
      some (pyStrip a)

/-- `resolver.extract_domain_from_email`: `email.split("@")[1].lower()` when
`"@" in email`, else `""`. -/
def extract_domain_from_email (email : String) : String :=
  if strContains email '@' then
    pyLower (String.mk ((pySplitChar '@' email.data).getD 1 []))
  else ""

/-- `resolver.extract_local_part_from_email`: `email.split("@")[0].lower()`
when `"@" in email`, else the email unchanged. -/
def extract_local_part_from_email (email : String) : String :=
  if strContains email '@' then
    pyLower (String.mk ((pySplitChar '@' email.data).getD 0 []))
  else email

/-- The reading of claim C8's phrase "the entire substring after the first
`@`, lower-cased", written from the specification's words for comparison
with `extract_domain_from_email`. -/
def domainAfterFirstAt (email : String) : String :=
  pyLower (String.mk ((email.data.dropWhile (fun c => c ≠ '@')).drop 1))

/-! ## Business-domain classification and company naming (`processor.py`) -/

/-- `processor.COMMON_EMAIL_PROVIDERS`: the public-webmail deny-list. -/
def COMMON_EMAIL_PROVIDERS : List String :=
  ["gmail.com", "yahoo.com", "outlook.com", "hotmail.com", "icloud.com"]

/-- `processor.is_business_domain`: empty domains are not business; a
non-empty domain is business unless its lower-casing is on the deny-list. -/
def is_business_domain (domain : String) : Bool :=
  if domain = "" then false
  else !(COMMON_EMAIL_PROVIDERS.contains (pyLower domain))

/-- Step 4 of `process_thread_entities`, per email: the domain recorded in
`email_to_domain` — present exactly when the extracted domain is non-empty
and a business domain. -/
def classifiedDomain (email : String) : Option String :=
  let d := extract_domain_from_email email
  if d ≠ "" && is_business_domain d then some d else none

/-- Step 4 of `process_thread_entities`: the set of distinct business
domains of the participant emails (`business_domains`). -/
def businessDomains (emails : List String) : List String :=
  (emails.filterMap classifiedDomain).dedup

/-- Company display name from a domain:
`domain.split(".")[0].capitalize() if "." in domain else domain.capitalize()`
(identical in `processor.py` step 5 and `resolver.py` JIT creation). -/
def companyNameFromDomain (domain : String) : String :=
  if strContains domain '.' then
    pyCapitalize (String.mk ((pySplitChar '.' domain.data).headD []))
  else pyCapitalize domain

/-! ## Record-store rows -/

/-- A row of the `companies` table. -/
structure CompanyRow where
  user_id : String
  domain_name : String
  company_name : String
  status : String
  company_id : Nat
deriving DecidableEq, Repr

/-- A row of the `customers` table. `company_id`/`domain_match` are nullable
columns (absent keys of the Python insert dict are `none`). -/
structure CustomerRow where
  user_id : String
  email : String
  full_name : String
  company_id : Option Nat
  domain_match : Option String
  status : String
  customer_id : Nat
deriving DecidableEq, Repr

/-- `companies ... .eq("domain_name", d).eq("user_id", u).maybe_single()`. -/
def findCompany (db : List CompanyRow) (user domain : String) : Option CompanyRow :=
  db.find? (fun c => c.domain_name == domain && c.user_id == user)

/-- `customers ... .eq("email", e).eq("user_id", u).maybe_single()`. -/
def findCustomer (db : List CustomerRow) (user email : String) : Option CustomerRow :=
  db.find? (fun c => c.email == email && c.user_id == user)

/-! ## `process_thread_entities` (`processor.py`) -/

/-- Step 5 of `process_thread_entities` for one business domain: look the
company up; when absent, upsert a fresh row with the derived display name
and status `"active"` (the upsert/insert/duplicate-swallow fallbacks all
land on this outcome for a fresh domain). -/
def upsertCompanyForDomain (user : String) (db : List CompanyRow) (domain : String) :
    List CompanyRow :=
  match findCompany db user domain with
  | some _ => db
  | none =>
    db ++ [{ user_id := user, domain_name := domain,
             company_name := companyNameFromDomain domain,
             status := "active", company_id := db.length }]

/-- Step 5 of `process_thread_entities`: fold the per-domain find-or-create
over the business domains of the batch. -/
def processorUpsertCompanies (user : String) (db : List CompanyRow)
    (emails : List String) : List CompanyRow :=
  (businessDomains emails).foldl (upsertCompanyForDomain user) db

/-- The SQL update of `processor.py` lines 320-323 and 381-384:
`update({company_id, domain_match}).eq("customer_id", id).eq("user_id", u)`. -/
def applyCustomerUpdate (db : List CustomerRow) (cid : Nat) (user : String)
    (newCompany : Nat) (newDomain : String) : List CustomerRow :=
  db.map (fun c =>
    if c.customer_id == cid && c.user_id == user then
      { c with company_id := some newCompany, domain_match := some newDomain }
    else c)

/-- Step 6 of `process_thread_entities` for one participant email, over the
`customers` table. `emailToDomain` is the `email_to_domain` dict of step 4
(business emails only) and `domainToCompany` the `domain_to_company_id`
dict of step 5. An existing customer is updated only when both lookups
succeed; a new customer is inserted with the nullable association columns
populated from whatever the lookups give. -/
def processorResolveCustomerStep (user : String) (emailToDomain : String → Option String)
    (domainToCompany : String → Option Nat) (db : List CustomerRow) (email : String) :
    List CustomerRow :=
  match findCustomer db user email with
  | some c =>
    match emailToDomain email with
    | some d =>
      match domainToCompany d with
      | some cid => applyCustomerUpdate db c.customer_id user cid d
      | none => db
    | none => db
  | none =>
    let domain := emailToDomain email
    let company_id : Option Nat :=
      match domain with
      | some d => domainToCompany d
      | none => none
    let local_part :=
      if strContains email '@' then String.mk ((pySplitChar '@' email.data).headD [])
      else email
    db ++ [{ user_id := user, email := email, full_name := local_part,
             company_id := company_id, domain_match := domain,
             status := "prospect", customer_id := db.length }]

/-! ## `resolve_thread_entities` customer resolution (`resolver.py`) -/

/-- The record-store state `resolve_thread_entities` reads and writes while
resolving customers. -/
structure ResolverDB where
  companies : List CompanyRow
  customers : List CustomerRow
deriving Repr

/-- The running state of step 4 of `resolve_thread_entities`: the store plus
the counters and error list of the report. -/
structure ResolveState where
  db : ResolverDB
  customers_created : Nat
  customers_found : Nat
  errors : List String
deriving Repr

/-- An empty store and zeroed report. -/
def emptyResolveState : ResolveState :=
  { db := { companies := [], customers := [] },
    customers_created := 0, customers_found := 0, errors := [] }

/-- One iteration of the `for email in all_unique_emails` loop of
`resolve_thread_entities` (lines 277-368): an existing customer is counted
as found; otherwise the domain is resolved to a company — created
just-in-time for ANY non-empty domain — and the customer is inserted only
when a company id is available, else recorded as an error and skipped. -/
def resolverResolveEmail (user : String) (st : ResolveState) (email : String) :
    ResolveState :=
  match findCustomer st.db.customers user email with
  | some _ => { st with customers_found := st.customers_found + 1 }
  | none =>
    let domain := extract_domain_from_email email
    let local_part := extract_local_part_from_email email
    let found := if domain ≠ "" then findCompany st.db.companies user domain else none
    let companies' :=
      if domain ≠ "" then
        match found with
        | some _ => st.db.companies
        | none =>
          st.db.companies ++
            [{ user_id := user, domain_name := domain,
               company_name := companyNameFromDomain domain,
               status := "active", company_id := st.db.companies.length }]
      else st.db.companies
    let company_id : Option Nat :=
      if domain ≠ "" then
        match found with
        | some c => some c.company_id
        | none => some st.db.companies.length
      else none
    match company_id with
    | none =>
      { st with
        db := { st.db with companies := companies' },
        errors := st.errors ++
          ["Could not create or find company for domain " ++ domain ++
            " - cannot create customer " ++ email] }
    | some cid =>
      { st with
        db := { companies := companies',
                customers := st.db.customers ++
                  [{ user_id := user, email := email, full_name := local_part,
                     company_id := some cid, domain_match := some domain,
                     status := "prospect", customer_id := st.db.customers.length }] },
        customers_created := st.customers_created + 1 }

/-! ## Idempotency gate before queuing (`resolver.py` step 6/7) -/

/-- Outcome of the per-thread stage check. -/
inductive StageDecision where
  | skip (reason : String)
  | eligible (warned : Bool)
deriving DecidableEq, Repr

/-- The stage classification of `resolve_thread_entities` lines 438-460:
in-flight and completed stages are skipped with a reason; the known idle
stages and a missing record are eligible; anything else is eligible with a
warning. -/
def idempotencyDecision (stage : Option String) : StageDecision :=
  match stage with
  | some s =>
    if s = "analyzing" || s = "queued" || s = "queued_for_analysis" then
      .skip ("already in \x27" ++ s ++ "\x27 stage")
    else if s = "completed" then
      .skip "already completed"
    else if s = "new" || s = "pending" || s = "resolving_entities" then
      .eligible false
    else
      .eligible true
  | none => .eligible false

/-- Whether a decision lets the thread continue to queuing. -/
def decisionEligible : StageDecision → Bool
  | .eligible _ => true
  | .skip _ => false

/-- The skip reason of a decision, when it is a skip. -/
def decisionReason : StageDecision → Option String
  | .skip r => some r
  | .eligible _ => none

/-- `threads_to_process`: the threads of the batch whose stage decision is
eligible, in batch order. -/
def threadsToProcess (ids : List String) (stages : String → Option String) :
    List String :=
  ids.filter (fun t => decisionEligible (idempotencyDecision (stages t)))

/-- `skipped_threads`: the skipped threads of the batch, each with its
reason, in batch order. -/
def skippedThreads (ids : List String) (stages : String → Option String) :
    List (String × String) :=
  ids.filterMap (fun t =>
    (decisionReason (idempotencyDecision (stages t))).map (fun r => (t, r)))

/-- Step 7's stage write: `update({current_stage: "queued"})` restricted to
`threads_to_process`; everything else keeps its stage. -/
def stagesAfterQueue (ids : List String) (stages : String → Option String) :
    String → Option String :=
  fun t => if t ∈ threadsToProcess ids stages then some "queued" else stages t

/-- Step 7's trigger loop dispatches one analysis job per thread of
`threads_to_process` (each dispatch modelled as succeeding). -/
def jobsTriggered (ids : List String) (stages : String → Option String) :
    List String :=
  threadsToProcess ids stages

/-! ## Analysis engine (`analyzer.py`) -/

/-- What the incremental filter sees of a message's timestamp: the field is
falsy (`missing`), present but `datetime.fromisoformat` raises
(`unparseable`), or parses to a comparable instant. -/
inductive PyDate where
  | missing
  | unparseable
  | parsed (t : Int)
deriving DecidableEq, Repr

/-- A `thread_messages` row as `analyze_thread` reads it. `created_at` is
not in the select list, so it is `missing` at run time; the field is kept
because the filter consults it as a fallback. -/
structure AMsg where
  customer_id : Option String
  body_text : String
  body_html : String
  sent_date : PyDate
  created_at : PyDate
deriving DecidableEq, Repr

/-- `msg.get("body_text", "") or msg.get("body_html", "")`. -/
def msgBody (m : AMsg) : String :=
  if m.body_text ≠ "" then m.body_text else m.body_html

/-- `analyzer.estimate_tokens`: `len(text) // 4`. -/
def estimate_tokens (text : String) : Nat := text.length / 4

/-- The token estimate of `analyze_thread` step 3:
`estimate_tokens(" ".join(bodies))`. -/
def totalTokensOfMessages (msgs : List AMsg) : Nat :=
  estimate_tokens (pyJoin " " (msgs.map msgBody))

/-- The literal marker line inserted between head and tail. -/
def TRUNCATION_MARKER : String :=
  "[...Middle of conversation truncated for length...]"

/-- One transcript line: `"CustomerName (CompanyName): body"`, with
participant lookup defaulting to `"Unknown" ("Unknown Company")`. -/
def transcriptLine (participants : String → Option (String × String)) (m : AMsg) :
    String :=
  let info :=
    match m.customer_id with
    | none => none
    | some cid => participants cid
  let customer_name := (info.map Prod.fst).getD "Unknown"
  let company_name := (info.map Prod.snd).getD "Unknown Company"
  customer_name ++ " (" ++ company_name ++ "): " ++ msgBody m

/-- `analyzer.construct_transcript`: one line per message with a non-empty
body, joined by blank lines. -/
def construct_transcript (participants : String → Option (String × String))
    (msgs : List AMsg) : String :=
  pyJoin "\n\n" ((msgs.filter (fun m => msgBody m ≠ "")).map (transcriptLine participants))

/-- The transcript `analyze_thread` actually sends to the LLM (steps 2-3,
lines 345-387). `int(total_messages * 0.2)` is `n / 5` (float truncation
agrees with integer division at every realistic count). The tail slice is
Python's `messages[-last_20_percent:]`, so a zero tail count keeps the
whole list. -/
def analyzerTranscript (participants : String → Option (String × String))
    (msgs : List AMsg) : String :=
  if totalTokensOfMessages msgs > 100000 then
    let k := msgs.length / 5
    pyJoin "\n\n"
      ((((msgs.take k).filter (fun m => msgBody m ≠ "")).map (transcriptLine participants))
        ++ [TRUNCATION_MARKER]
        ++ (((pyTail msgs k).filter (fun m => msgBody m ≠ "")).map (transcriptLine participants)))
  else construct_transcript participants msgs

/-- Claim C1's reading of truncation, written from the specification's
words: over the limit, the transcript is rebuilt from exactly the first
`⌊0.2n⌋` messages, the marker, and exactly the last `⌊0.2n⌋` messages. -/
def claimTranscript (participants : String → Option (String × String))
    (msgs : List AMsg) : String :=
  if totalTokensOfMessages msgs > 100000 then
    let k := msgs.length / 5
    pyJoin "\n\n"
      ((((msgs.take k).filter (fun m => msgBody m ≠ "")).map (transcriptLine participants))
        ++ [TRUNCATION_MARKER]
        ++ (((msgs.drop (msgs.length - k)).filter (fun m => msgBody m ≠ "")).map (transcriptLine participants)))
  else construct_transcript participants msgs

/-- A single message whose body estimates to 100,001 tokens: the concrete
failing input for claim C1. -/
def hugeBody : String := String.mk (List.replicate 400004 'a')

/-- The one-message thread built from `hugeBody`. -/
def hugeMsg : AMsg :=
  { customer_id := none, body_text := hugeBody, body_html := "",
    sent_date := PyDate.missing, created_at := PyDate.missing }

/-- The effective timestamp of a message in the incremental filter:
`msg.get("sent_date") or msg.get("created_at")`. -/
def effDate (m : AMsg) : PyDate :=
  match m.sent_date with
  | PyDate.missing => m.created_at
  | d => d

/-- Whether the incremental filter keeps a message, given a parsed
`last_analyzed_at`: kept when strictly newer; kept when its date is missing
or fails to parse (the `except` and `else` branches both append). -/
def includeIncremental (last : Int) (m : AMsg) : Bool :=
  match effDate m with
  | PyDate.missing => true
  | PyDate.unparseable => true
  | PyDate.parsed t => last < t

/-- What mode selection (step 1.5 of `analyze_thread`) decides: the mode
string, the messages analysis will use, whether the run short-circuited
with `skipped=true`, the stage written by the short-circuit, and how many
LLM calls the rest of the run performs (one on the analysis path, none on
the short-circuit). -/
structure ModeReport where
  mode : String
  usedMessages : List AMsg
  skipped : Bool
  stageWritten : Option String
  llmCalls : Nat
deriving DecidableEq, Repr

/-- Step 1.5 of `analyze_thread`: full mode over all messages when
`last_analyzed_at` is null; otherwise incremental filtering, with the
zero-message short-circuit setting stage `completed`, reporting
`skipped=true` and never reaching the LLM call. -/
def analyzeModeSelection (last : Option Int) (msgs : List AMsg) : ModeReport :=
  match last with
  | none =>
    { mode := "full", usedMessages := msgs, skipped := false,
      stageWritten := none, llmCalls := 1 }
  | some t =>
    let filtered := msgs.filter (includeIncremental t)
    if filtered.isEmpty then
      { mode := "incremental", usedMessages := [], skipped := true,
        stageWritten := some "completed", llmCalls := 0 }
    else
      { mode := "incremental", usedMessages := filtered, skipped := false,
        stageWritten := none, llmCalls := 1 }

/-! ## Next-step deduplication (`analyzer.py`) -/

/-- The normalisation both sides of the duplicate check apply:
`.lower().strip()`. -/
def normalizeDesc (s : String) : String := pyStrip (pyLower s)

/-- `analyzer.check_next_step_exists` against the stored descriptions of the
thread: empty descriptions never match; otherwise any non-empty stored
description equal after normalisation is a duplicate. -/
def check_next_step_exists (stored : List String) (description : String) : Bool :=
  if description = "" then false
  else stored.any (fun e => !(e == "") && (normalizeDesc e == normalizeDesc description))

/-- The `next_steps_to_insert` list built by `analyze_thread` lines 590-616:
batch items in order, dropping falsy descriptions and those whose duplicate
check against the STORED rows (unchanged during the loop) fires. -/
def nextStepsToInsert (stored : List String) (batch : List String) : List String :=
  batch.filter (fun d => !(d == "") && !(check_next_step_exists stored d))

/-- The thread's stored next-step descriptions after one analysis run
persists its batch (the single insert call of line 619). -/
def runNextSteps (stored : List String) (batch : List String) : List String :=
  stored ++ nextStepsToInsert stored batch

/-! ## Concrete fixtures used to instantiate the theorems -/

/-- A batch of three threads. -/
def wIds : List String := ["t1", "t2", "t3"]

/-- Stage map: `t1` completed, `t2` new, `t3` without a record. -/
def wStages : String → Option String :=
  fun t => if t = "t1" then some "completed" else if t = "t2" then some "new" else none

/-- An existing customer with no company association. -/
def wCustomer : CustomerRow :=
  { user_id := "u", email := "amy@acme.io", full_name := "amy",
    company_id := none, domain_match := none, status := "prospect", customer_id := 7 }

/-- `email_to_domain` fixture resolving only `wCustomer`'s email. -/
def wEtd : String → Option String :=
  fun e => if e = "amy@acme.io" then some "acme.io" else none

/-- `domain_to_company_id` fixture resolving only `acme.io`. -/
def wDtc : String → Option Nat :=
  fun d => if d = "acme.io" then some 3 else none

/-- `wCustomer` with the association the resolution run writes. -/
def wUpdated : CustomerRow :=
  { wCustomer with company_id := some 3, domain_match := some "acme.io" }

/-- Lookup maps that resolve nothing. -/
def wNoneEtd : String → Option String := fun _ => none

/-- Company map that resolves nothing. -/
def wNoneDtc : String → Option Nat := fun _ => none

/-- A message sent at instant 3, for a thread last analysed at instant 5. -/
def wOldMsg : AMsg :=
  { customer_id := none, body_text := "hi", body_html := "",
    sent_date := PyDate.parsed 3, created_at := PyDate.missing }

/-! ## Helper lemmas -/

/-- The first segment of a Python split is everything before the first
separator. -/
theorem pySplitChar_head (sep : Char) (l : List Char) :
    (pySplitChar sep l).headD [] = l.takeWhile (fun c => c ≠ sep) := by
  induction l with
  | nil => simp [pySplitChar]
  | cons c cs ih =>
    by_cases h : c = sep
    · subst h
      simp [pySplitChar, List.takeWhile_cons]
    · simp only [ne_eq, decide_not, List.headD_eq_head?_getD] at ih ⊢
      simp [pySplitChar, if_neg h, List.takeWhile_cons, h, ih]

/-- The second segment of a Python split is everything strictly between the
first separator and the next one (or the end); `[]` when there is no
separator. -/
theorem pySplitChar_second (sep : Char) (l : List Char) :
    (pySplitChar sep l).tail.headD [] =
      ((l.dropWhile (fun c => c ≠ sep)).drop 1).takeWhile (fun c => c ≠ sep) := by
  induction l with
  | nil => simp [pySplitChar]
  | cons c cs ih =>
    by_cases h : c = sep
    · subst h
      rw [List.dropWhile_cons, if_neg (by simp)]
      simpa [pySplitChar] using pySplitChar_head c cs
    · rw [List.dropWhile_cons, if_pos (by simp [h])]
      simpa [pySplitChar, if_neg h] using ih

/-- `getD 1` agrees with the `tail`/`headD` view used above. -/
theorem getD_one_eq_tail_headD (l : List (List Char)) :
    l.getD 1 [] = l.tail.headD [] := by
  cases l with
  | nil => rfl
  | cons a t => cases t <;> rfl

/-! ## Claim C7 — address parsing -/

/-- Claim C7 counterexample: on `"Name < a@b.com >"`, which contains an
angle-bracket pair, extraction does NOT return the substring strictly
between `<` and `>` (that substring is `" a@b.com "`): the code strips it
to `"a@b.com"` first. -/
theorem claim_C7_counterexample :
    extract_email_from_address (some "Name < a@b.com >") = some "a@b.com" ∧
    pySlice "Name < a@b.com >" (firstIdx "Name < a@b.com >" '<' + 1)
        (firstIdx "Name < a@b.com >" '>') = " a@b.com " ∧
    some (" a@b.com " : String) ≠ some ("a@b.com" : String) := by
  refine ⟨by decide, by decide, by decide⟩

/-- Claim C7 (amended): for every address containing both `<` and `>`,
extraction returns the substring strictly between the first `<` and the
first `>` TRIMMED of surrounding whitespace; every other non-empty address
gives the address trimmed; `None`/empty input gives no result; extraction
never errors (it is total); and `"Name <a@b.com>"` gives `"a@b.com"`,
`"a@b.com"` gives `"a@b.com"` unchanged. -/
theorem claim_C7_amended (a : String) :
    extract_email_from_address none = none ∧
    extract_email_from_address (some "") = none ∧
    (a ≠ "" → strContains a '<' = true → strContains a '>' = true →
      extract_email_from_address (some a) =
        some (pyStrip (pySlice a (firstIdx a '<' + 1) (firstIdx a '>')))) ∧
    (a ≠ "" → (strContains a '<' = false ∨ strContains a '>' = false) →
      extract_email_from_address (some a) = some (pyStrip a)) ∧
    extract_email_from_address (some "Name <a@b.com>") = some "a@b.com" ∧
    extract_email_from_address (some "a@b.com") = some "a@b.com" := by
  refine ⟨rfl, by decide, ?_, ?_, by decide, by decide⟩
  · intro h1 h2 h3
    simp [extract_email_from_address, h1, h2, h3]
  · intro h1 h2
    rcases h2 with h2 | h2 <;> simp [extract_email_from_address, h1, h2]

/-- Witness for the amended C7 theorem at `"Name <a@b.com>"`. -/
theorem claim_C7_witness :
    extract_email_from_address (some "Name <a@b.com>") =
      some (pyStrip (pySlice "Name <a@b.com>" (firstIdx "Name <a@b.com>" '<' + 1)
        (firstIdx "Name <a@b.com>" '>'))) :=
  (claim_C7_amended "Name <a@b.com>").2.2.1 (by decide) (by decide) (by decide)

/-! ## Claim C8 — domain extraction -/

/-- Claim C8 counterexample: on `"a@b@c"`, which contains an `@`,
`extract_domain_from_email` returns `"b"`, not the entire substring after
the first `@` (which is `"b@c"`): `split("@")[1]` stops at the second `@`. -/
theorem claim_C8_counterexample :
    extract_domain_from_email "a@b@c" = "b" ∧
    domainAfterFirstAt "a@b@c" = "b@c" ∧
    ("b" : String) ≠ "b@c" := by
  refine ⟨by decide, by decide, by decide⟩

/-- Claim C8 (amended): for every email containing an `@`,
`extract_domain_from_email` returns the substring strictly between the
first `@` and the NEXT `@` (or the end of the string), lower-cased; a
string without `@` yields `""`; and an empty extracted domain is excluded
from domain-based classification. -/
theorem claim_C8_amended (email : String) :
    (strContains email '@' = true →
      extract_domain_from_email email =
        pyLower (String.mk (((email.data.dropWhile (fun c => c ≠ '@')).drop 1).takeWhile
          (fun c => c ≠ '@')))) ∧
    (strContains email '@' = false → extract_domain_from_email email = "") ∧
    (extract_domain_from_email email = "" → classifiedDomain email = none) := by
  refine ⟨?_, ?_, ?_⟩
  · intro h
    rw [extract_domain_from_email, if_pos h, getD_one_eq_tail_headD, pySplitChar_second]
  · intro h
    rw [extract_domain_from_email, if_neg (by simp [h])]
  · intro h
    simp [classifiedDomain, h]

/-- Witness for the amended C8 theorem at `"a@b@c"`. -/
theorem claim_C8_witness :
    extract_domain_from_email "a@b@c" =
      pyLower (String.mk ((("a@b@c".data.dropWhile (fun c => c ≠ '@')).drop 1).takeWhile
        (fun c => c ≠ '@'))) :=
  (claim_C8_amended "a@b@c").1 (by decide)

/-! ## Claim C2 — company creation only for business domains -/

/-- A deny-listed domain is never classified as business. -/
theorem is_business_of_mem_providers (d : String) (hd : d ∈ COMMON_EMAIL_PROVIDERS) :
    is_business_domain d = false := by
  fin_cases hd <;> decide

/-- A deny-listed domain never enters `business_domains`. -/
theorem not_mem_businessDomains (emails : List String) (d : String)
    (hd : d ∈ COMMON_EMAIL_PROVIDERS) : d ∉ businessDomains emails := by
  intro hmem
  rw [businessDomains, List.mem_dedup] at hmem
  obtain ⟨e, _, hce⟩ := List.mem_filterMap.mp hmem
  simp only [classifiedDomain] at hce
  split at hce
  · rename_i hcond
    simp only [Bool.and_eq_true] at hcond
    obtain ⟨-, hbus⟩ := hcond
    have hde : extract_domain_from_email e = d := by injection hce
    rw [hde, is_business_of_mem_providers d hd] at hbus
    exact Bool.false_ne_true hbus
  · exact Option.noConfusion hce

/-- Folding the company find-or-create over domains other than `d` leaves
the rows with domain `d` unchanged. -/
theorem foldl_upsert_filter_of_not_mem (user : String) (d : String) (ds : List String)
    (db : List CompanyRow) (hd : ∀ d' ∈ ds, d' ≠ d) :
    (ds.foldl (upsertCompanyForDomain user) db).filter (fun c => c.domain_name == d) =
      db.filter (fun c => c.domain_name == d) := by
  induction ds generalizing db with
  | nil => rfl
  | cons x xs ih =>
    rw [List.foldl_cons, ih _ (fun d' h => hd d' (List.mem_cons_of_mem _ h))]
    have hx : x ≠ d := hd x (List.mem_cons_self _ _)
    rcases hfc : findCompany db user x with _ | c
    · simp [upsertCompanyForDomain, hfc, List.filter_append, hx]
    · simp [upsertCompanyForDomain, hfc]

/-- Claim C2 counterexample: the claim fails on `resolve_thread_entities`.
Resolving the fresh participant email `"alice@gmail.com"` against an empty
store performs a Company find-or-create for the deny-listed domain
`"gmail.com"`, actually creating the row. -/
theorem claim_C2_counterexample :
    ("gmail.com" ∈ COMMON_EMAIL_PROVIDERS) ∧
    extract_domain_from_email "alice@gmail.com" = "gmail.com" ∧
    (resolverResolveEmail "u" emptyResolveState "alice@gmail.com").db.companies.filter
      (fun c => c.domain_name == "gmail.com") ≠ [] := by
  refine ⟨by decide, by decide, by decide⟩

/-- Claim C2 (amended): in `process_thread_entities`, a Company is
found-or-created only for business domains — a deny-listed domain is not in
the iterated `business_domains` set, and the company table's rows for that
domain are untouched. (`resolve_thread_entities`, by contrast, creates a
company just-in-time for ANY non-empty domain of a new customer's email,
deny-listed or not — the counterexample.) -/
theorem claim_C2_amended (user : String) (db : List CompanyRow) (emails : List String)
    (d : String) (hd : d ∈ COMMON_EMAIL_PROVIDERS) :
    d ∉ businessDomains emails ∧
    (processorUpsertCompanies user db emails).filter (fun c => c.domain_name == d) =
      db.filter (fun c => c.domain_name == d) := by
  have h1 := not_mem_businessDomains emails d hd
  exact ⟨h1, foldl_upsert_filter_of_not_mem user d _ db
    (fun d' h he => h1 (he ▸ h))⟩

/-- Witness for the amended C2 theorem: a batch containing a gmail address
creates no gmail company in the processor. -/
theorem claim_C2_witness :
    "gmail.com" ∉ businessDomains ["alice@gmail.com", "bob@acme.io"] ∧
    (processorUpsertCompanies "u" [] ["alice@gmail.com", "bob@acme.io"]).filter
        (fun c => c.domain_name == "gmail.com") =
      ([] : List CompanyRow).filter (fun c => c.domain_name == "gmail.com") :=
  claim_C2_amended "u" [] ["alice@gmail.com", "bob@acme.io"] "gmail.com" (by decide)

/-! ## Claim C3 — customer creation with nullable company -/

/-- Claim C3 counterexample: the claim fails on `resolve_thread_entities`.
The fresh participant email `"bob"` (no `@`, hence no resolvable company
id) gets NO Customer row: the resolver records an error and skips the
insert instead of creating a customer with a null company id. -/
theorem claim_C3_counterexample :
    findCustomer emptyResolveState.db.customers "u" "bob" = none ∧
    (resolverResolveEmail "u" emptyResolveState "bob").db.customers = [] ∧
    (resolverResolveEmail "u" emptyResolveState "bob").errors ≠ [] := by
  refine ⟨by decide, by decide, by decide⟩

/-- Claim C3 (amended): in `process_thread_entities`, every participant
email without an existing Customer row gets a Customer inserted, with
`status = "prospect"`, the local part as placeholder name, and the NULLABLE
company id obtained by chaining the domain and company lookups — in
particular the row is created even when both lookups fail.
(`resolve_thread_entities`, by contrast, skips customer creation entirely
when no company id could be resolved — the counterexample.) -/
theorem claim_C3_amended (user : String) (emailToDomain : String → Option String)
    (domainToCompany : String → Option Nat) (db : List CustomerRow) (email : String)
    (h : findCustomer db user email = none) :
    processorResolveCustomerStep user emailToDomain domainToCompany db email =
      db ++ [{ user_id := user, email := email,
               full_name :=
                 if strContains email '@' then
                   String.mk ((pySplitChar '@' email.data).headD [])
                 else email,
               company_id := (emailToDomain email).bind domainToCompany,
               domain_match := emailToDomain email,
               status := "prospect", customer_id := db.length }] := by
  simp only [processorResolveCustomerStep, h]
  cases he : emailToDomain email <;> simp [he, Option.bind]

/-- Witness for the amended C3 theorem: an email whose domain resolves to
nothing still yields a customer row, with null company id. -/
theorem claim_C3_witness :
    processorResolveCustomerStep "u" wNoneEtd wNoneDtc [] "x@gmail.com" =
      [] ++ [{ user_id := "u", email := "x@gmail.com",
               full_name :=
                 if strContains "x@gmail.com" '@' then
                   String.mk ((pySplitChar '@' "x@gmail.com".data).headD [])
                 else "x@gmail.com",
               company_id := (wNoneEtd "x@gmail.com").bind wNoneDtc,
               domain_match := wNoneEtd "x@gmail.com",
               status := "prospect", customer_id := List.length ([] : List CustomerRow) }] :=
  claim_C3_amended "u" wNoneEtd wNoneDtc [] "x@gmail.com" (by decide)

/-! ## Claim C9 — resolution never erases a company association -/

/-- Claim C9: when `process_thread_entities` resolves an email whose
Customer row already exists, every row of the resulting table comes from a
pre-existing row with `user_id`, `email`, `full_name`, `status` and
`customer_id` untouched, and its association columns either kept verbatim or
overwritten with the RESOLVED (non-null) company id and domain; a
previously set `company_id` is never overwritten with null. -/
theorem claim_C9_theorem (user : String) (etd : String → Option String)
    (dtc : String → Option Nat) (db : List CustomerRow) (email : String)
    (c : CustomerRow) (h : findCustomer db user email = some c) :
    ∀ x ∈ processorResolveCustomerStep user etd dtc db email, ∃ y ∈ db,
      x.user_id = y.user_id ∧ x.email = y.email ∧ x.full_name = y.full_name ∧
      x.status = y.status ∧ x.customer_id = y.customer_id ∧
      ((x.company_id = y.company_id ∧ x.domain_match = y.domain_match) ∨
        (∃ d cid, etd email = some d ∧ dtc d = some cid ∧
          x.company_id = some cid ∧ x.domain_match = some d)) ∧
      (y.company_id ≠ none → x.company_id ≠ none) := by
  intro x hx
  simp only [processorResolveCustomerStep, h] at hx
  rcases he : etd email with _ | d
  · rw [he] at hx
    exact ⟨x, hx, rfl, rfl, rfl, rfl, rfl, Or.inl ⟨rfl, rfl⟩, fun hy => hy⟩
  · rw [he] at hx
    dsimp only at hx
    rcases hc : dtc d with _ | cid
    · rw [hc] at hx
      exact ⟨x, hx, rfl, rfl, rfl, rfl, rfl, Or.inl ⟨rfl, rfl⟩, fun hy => hy⟩
    · rw [hc] at hx
      dsimp only at hx
      simp only [applyCustomerUpdate, List.mem_map] at hx
      obtain ⟨y, hy, hxy⟩ := hx
      by_cases hcond : (y.customer_id == c.customer_id && y.user_id == user) = true
      · rw [if_pos hcond] at hxy
        subst hxy
        exact ⟨y, hy, rfl, rfl, rfl, rfl, rfl,
          Or.inr ⟨d, cid, rfl, hc, rfl, rfl⟩, fun _ => by simp⟩
      · rw [if_neg hcond] at hxy
        subst hxy
        exact ⟨y, hy, rfl, rfl, rfl, rfl, rfl, Or.inl ⟨rfl, rfl⟩, fun hy => hy⟩

/-- Witness for C9: updating `wCustomer` with a resolved company keeps
every identity field and sets, never nulls, the association. -/
theorem claim_C9_witness :
    ∃ y ∈ [wCustomer],
      wUpdated.user_id = y.user_id ∧ wUpdated.email = y.email ∧
      wUpdated.full_name = y.full_name ∧ wUpdated.status = y.status ∧
      wUpdated.customer_id = y.customer_id ∧
      ((wUpdated.company_id = y.company_id ∧ wUpdated.domain_match = y.domain_match) ∨
        (∃ d cid, wEtd "amy@acme.io" = some d ∧ wDtc d = some cid ∧
          wUpdated.company_id = some cid ∧ wUpdated.domain_match = some d)) ∧
      (y.company_id ≠ none → wUpdated.company_id ≠ none) :=
  claim_C9_theorem "u" wEtd wDtc [wCustomer] "amy@acme.io" wCustomer (by decide)
    wUpdated (by decide)

/-! ## Claim C4 — eligibility gate before queuing -/

/-- Membership in `threads_to_process` is batch membership plus an eligible
decision. -/
theorem mem_threadsToProcess_iff (ids : List String) (stages : String → Option String)
    (t : String) :
    t ∈ threadsToProcess ids stages ↔
      t ∈ ids ∧ decisionEligible (idempotencyDecision (stages t)) = true := by
  simp [threadsToProcess, List.mem_filter]

/-- Membership in `skipped_threads` is batch membership plus a skip reason. -/
theorem mem_skippedThreads_iff (ids : List String) (stages : String → Option String)
    (t r : String) :
    (t, r) ∈ skippedThreads ids stages ↔
      t ∈ ids ∧ decisionReason (idempotencyDecision (stages t)) = some r := by
  constructor
  · intro h
    obtain ⟨a, ha, hfa⟩ := List.mem_filterMap.mp h
    rcases hd : decisionReason (idempotencyDecision (stages a)) with _ | r'
    · rw [hd] at hfa
      exact absurd hfa (by simp)
    · rw [hd] at hfa
      obtain ⟨rfl, rfl⟩ : a = t ∧ r' = r := by simpa using hfa
      exact ⟨ha, hd⟩
  · intro ⟨ha, hd⟩
    exact List.mem_filterMap.mpr ⟨t, ha, by rw [hd]; rfl⟩

/-- Claim C4: the eligibility gate classifies every thread by its current
stage: `analyzing`/`queued`/`queued_for_analysis` and `completed` are
skipped and land in `skipped_threads` with their reason, leaving the stage
untouched; `new`/`pending`/`resolving_entities`, a missing record, and any
unknown value (the latter with the warning flag) are eligible: they are
advanced to `queued`, get an analysis job triggered, and do not appear in
`skipped_threads`. -/
theorem claim_C4_theorem (ids : List String) (stages : String → Option String)
    (t : String) (ht : t ∈ ids) :
    (∀ s, stages t = some s →
      (s = "analyzing" ∨ s = "queued" ∨ s = "queued_for_analysis") →
      t ∉ threadsToProcess ids stages ∧
      (t, "already in \x27" ++ s ++ "\x27 stage") ∈ skippedThreads ids stages ∧
      stagesAfterQueue ids stages t = stages t) ∧
    (stages t = some "completed" →
      t ∉ threadsToProcess ids stages ∧
      (t, "already completed") ∈ skippedThreads ids stages ∧
      stagesAfterQueue ids stages t = stages t) ∧
    ((∀ s, stages t = some s →
        s ≠ "analyzing" ∧ s ≠ "queued" ∧ s ≠ "queued_for_analysis" ∧ s ≠ "completed") →
      t ∈ threadsToProcess ids stages ∧ t ∈ jobsTriggered ids stages ∧
      stagesAfterQueue ids stages t = some "queued" ∧
      ∀ r, (t, r) ∉ skippedThreads ids stages) ∧
    (∀ s, stages t = some s →
      s ∉ (["new", "pending", "resolving_entities", "analyzing", "queued",
            "queued_for_analysis", "completed"] : List String) →
      idempotencyDecision (stages t) = StageDecision.eligible true) ∧
    (stages t = none → idempotencyDecision (stages t) = StageDecision.eligible false) := by
  refine ⟨?_, ?_, ?_, ?_, ?_⟩
  · intro s hs hmem
    have hdec : idempotencyDecision (stages t) =
        StageDecision.skip ("already in \x27" ++ s ++ "\x27 stage") := by
      rw [hs]
      rcases hmem with rfl | rfl | rfl <;> rfl
    refine ⟨?_, ?_, ?_⟩
    · intro hmem'
      have := (mem_threadsToProcess_iff ids stages t).mp hmem'
      rw [hdec] at this
      exact absurd this.2 (by simp [decisionEligible])
    · exact (mem_skippedThreads_iff ids stages t _).mpr ⟨ht, by rw [hdec]; rfl⟩
    · rw [stagesAfterQueue, if_neg]
      intro hmem'
      have := (mem_threadsToProcess_iff ids stages t).mp hmem'
      rw [hdec] at this
      exact absurd this.2 (by simp [decisionEligible])
  · intro hs
    have hdec : idempotencyDecision (stages t) = StageDecision.skip "already completed" := by
      rw [hs]; rfl
    refine ⟨?_, ?_, ?_⟩
    · intro hmem'
      have := (mem_threadsToProcess_iff ids stages t).mp hmem'
      rw [hdec] at this
      exact absurd this.2 (by simp [decisionEligible])
    · exact (mem_skippedThreads_iff ids stages t _).mpr ⟨ht, by rw [hdec]; rfl⟩
    · rw [stagesAfterQueue, if_neg]
      intro hmem'
      have := (mem_threadsToProcess_iff ids stages t).mp hmem'
      rw [hdec] at this
      exact absurd this.2 (by simp [decisionEligible])
  · intro hs
    have hdec : decisionEligible (idempotencyDecision (stages t)) = true := by
      rcases hst : stages t with _ | s
      · rfl
      · obtain ⟨h1, h2, h3, h4⟩ := hs s hst
        simp only [idempotencyDecision]
        rw [if_neg (by simp [h1, h2, h3]), if_neg (by simpa using h4)]
        split <;> rfl
    have hmem' : t ∈ threadsToProcess ids stages :=
      (mem_threadsToProcess_iff ids stages t).mpr ⟨ht, hdec⟩
    refine ⟨hmem', hmem', by rw [stagesAfterQueue, if_pos hmem'], ?_⟩
    intro r hr
    have := ((mem_skippedThreads_iff ids stages t r).mp hr).2
    rcases hd : idempotencyDecision (stages t) with r' | w
    · rw [hd] at hdec
      exact absurd hdec (by simp [decisionEligible])
    · rw [hd] at this
      exact absurd this (by simp [decisionReason])
  · intro s hs hmem
    rw [hs]
    have h1 : s ≠ "new" := fun h => hmem (by simp [h])
    have h2 : s ≠ "pending" := fun h => hmem (by simp [h])
    have h3 : s ≠ "resolving_entities" := fun h => hmem (by simp [h])
    have h4 : s ≠ "analyzing" := fun h => hmem (by simp [h])
    have h5 : s ≠ "queued" := fun h => hmem (by simp [h])
    have h6 : s ≠ "queued_for_analysis" := fun h => hmem (by simp [h])
    have h7 : s ≠ "completed" := fun h => hmem (by simp [h])
    simp only [idempotencyDecision]
    rw [if_neg (by simp [h4, h5, h6]), if_neg (by simpa using h7),
      if_neg (by simp [h1, h2, h3])]
  · intro hs
    rw [hs]; rfl

/-- Witness for C4 at a concrete batch: `t1` (completed) is skipped with
its reason and keeps its stage. -/
theorem claim_C4_witness :
    "t1" ∉ threadsToProcess wIds wStages ∧
    ("t1", "already completed") ∈ skippedThreads wIds wStages ∧
    stagesAfterQueue wIds wStages "t1" = wStages "t1" :=
  (claim_C4_theorem wIds wStages "t1" (by decide)).2.1 (by decide)

/-! ## Claim C1 — context-window truncation -/

/-- The huge body has exactly 400,004 characters. -/
theorem hugeBody_length : hugeBody.length = 400004 := by
  show (List.replicate 400004 'a').length = 400004
  exact List.length_replicate 400004 'a'

/-- The huge body is non-empty. -/
theorem hugeBody_ne : hugeBody ≠ "" := by
  intro h
  have hl := congrArg String.length h
  rw [hugeBody_length] at hl
  exact absurd hl (by decide)

/-- The one-message thread estimates above the 100,000-token limit. -/
theorem hugeMsg_tokens : 100000 < totalTokensOfMessages [hugeMsg] := by
  have hb : msgBody hugeMsg = hugeBody := by
    simp only [msgBody]
    rw [if_pos (show hugeMsg.body_text ≠ "" from hugeBody_ne)]
    rfl
  rw [totalTokensOfMessages, List.map_cons, List.map_nil, hb,
    show pyJoin " " [hugeBody] = hugeBody from rfl, estimate_tokens, hugeBody_length]
  norm_num

/-- Claim C1 evaluated on the slipping path: for every single-message thread
over the token limit, the head count `int(1 * 0.2)` is 0 and the tail slice
`messages[-0:]` is the WHOLE list, so the "truncated" transcript that the
code rebuilds is the marker followed by the entire message — whereas the
claim demands exactly `floor(0.2·1) = 0` head messages, the marker, and
`floor(0.2·1) = 0` tail messages, i.e. the marker alone. The code
contradicts its own docstring ("keep first 20% and last 20%"): nothing is
removed. -/
theorem claim_C1_code_bug (ps : String → Option (String × String)) (m : AMsg)
    (htok : 100000 < totalTokensOfMessages [m]) (hb : msgBody m ≠ "") :
    analyzerTranscript ps [m] = TRUNCATION_MARKER ++ "\n\n" ++ transcriptLine ps m ∧
    claimTranscript ps [m] = TRUNCATION_MARKER ∧
    analyzerTranscript ps [m] ≠ claimTranscript ps [m] := by
  have h1 : analyzerTranscript ps [m] =
      TRUNCATION_MARKER ++ "\n\n" ++ transcriptLine ps m := by
    rw [analyzerTranscript, if_pos htok]
    simp [pyTail, hb, pyJoin]
  have h2 : claimTranscript ps [m] = TRUNCATION_MARKER := by
    rw [claimTranscript, if_pos htok]
    simp [pyJoin]
  refine ⟨h1, h2, ?_⟩
  rw [h1, h2]
  intro heq
  have hlen := congrArg String.length heq
  rw [String.length_append, String.length_append,
    show ("\n\n" : String).length = 2 from rfl] at hlen
  omega

/-- Witness for C1 at the concrete failing input: one message of 400,004
characters (estimate 100,001 tokens) — the transcript the code builds is not
the one the claim requires. -/
theorem claim_C1_witness :
    analyzerTranscript (fun _ => none) [hugeMsg] ≠
      claimTranscript (fun _ => none) [hugeMsg] :=
  (claim_C1_code_bug (fun _ => none) hugeMsg hugeMsg_tokens
    (by rw [show msgBody hugeMsg = hugeBody from by
          simp only [msgBody]
          rw [if_pos (show hugeMsg.body_text ≠ "" from hugeBody_ne)]
          rfl]
        exact hugeBody_ne)).2.2

/-! ## Claim C5 — mode selection and incremental short-circuit -/

/-- Claim C5: analysis runs in full mode over all messages iff
`last_analyzed_at` is null; with a non-null `last_analyzed_at` only
strictly newer messages are kept, messages with a missing or unparseable
timestamp are always kept (so their presence rules the short-circuit out),
and the run short-circuits — stage `completed`, `skipped=true`, zero LLM
calls — exactly when the filter leaves nothing. -/
theorem claim_C5_theorem (last : Option Int) (msgs : List AMsg) :
    ((analyzeModeSelection last msgs).mode = "full" ↔ last = none) ∧
    (last = none →
      (analyzeModeSelection last msgs).usedMessages = msgs ∧
      (analyzeModeSelection last msgs).skipped = false ∧
      (analyzeModeSelection last msgs).llmCalls = 1) ∧
    (∀ t, last = some t →
      (analyzeModeSelection last msgs).usedMessages = msgs.filter (includeIncremental t) ∧
      (∀ m ∈ msgs, effDate m = PyDate.missing ∨ effDate m = PyDate.unparseable →
        (analyzeModeSelection last msgs).skipped = false ∧
        m ∈ (analyzeModeSelection last msgs).usedMessages) ∧
      (msgs.filter (includeIncremental t) = [] ↔
        (analyzeModeSelection last msgs).skipped = true ∧
        (analyzeModeSelection last msgs).llmCalls = 0 ∧
        (analyzeModeSelection last msgs).stageWritten = some "completed")) := by
  rcases last with _ | t
  · refine ⟨by simp [analyzeModeSelection], fun _ => ⟨rfl, rfl, rfl⟩, fun t ht => ?_⟩
    exact absurd ht (by simp)
  · refine ⟨?_, fun h => absurd h (by simp), fun t' ht' => ?_⟩
    · constructor
      · intro hmode
        by_cases hf : (msgs.filter (includeIncremental t)).isEmpty
        · rw [analyzeModeSelection, if_pos hf] at hmode
          exact absurd hmode (by simp)
        · rw [analyzeModeSelection, if_neg hf] at hmode
          exact absurd hmode (by simp)
      · intro h
        exact absurd h (by simp)
    · injection ht' with hteq
      subst hteq
      have hinc : ∀ m ∈ msgs,
          effDate m = PyDate.missing ∨ effDate m = PyDate.unparseable →
          m ∈ msgs.filter (includeIncremental t) := by
        intro m hm hd
        refine List.mem_filter.mpr ⟨hm, ?_⟩
        rcases hd with hd | hd <;> simp [includeIncremental, hd]
      by_cases hf : (msgs.filter (includeIncremental t)).isEmpty
      · have hfe : msgs.filter (includeIncremental t) = [] := List.isEmpty_iff.mp hf
        refine ⟨?_, ?_, ?_⟩
        · rw [analyzeModeSelection, if_pos hf, hfe]
        · intro m hm hd
          have := hinc m hm hd
          rw [hfe] at this
          exact absurd this (List.not_mem_nil m)
        · constructor
          · intro _
            rw [analyzeModeSelection, if_pos hf]
            exact ⟨rfl, rfl, rfl⟩
          · intro _
            exact hfe
      · have hfe : msgs.filter (includeIncremental t) ≠ [] :=
          fun h => hf (List.isEmpty_iff.mpr h)
        refine ⟨by rw [analyzeModeSelection, if_neg hf], ?_, ?_⟩
        · intro m hm hd
          refine ⟨by rw [analyzeModeSelection, if_neg hf], ?_⟩
          rw [analyzeModeSelection, if_neg hf]
          exact hinc m hm hd
        · constructor
          · intro h
            exact absurd h hfe
          · rintro ⟨hs, -⟩
            rw [analyzeModeSelection, if_neg hf] at hs
            exact absurd hs (by simp)

/-- Witness for C5: one message older than `last_analyzed_at` triggers the
short-circuit: `skipped=true`, no LLM call, stage `completed`. -/
theorem claim_C5_witness :
    (analyzeModeSelection (some 5) [wOldMsg]).skipped = true ∧
    (analyzeModeSelection (some 5) [wOldMsg]).llmCalls = 0 ∧
    (analyzeModeSelection (some 5) [wOldMsg]).stageWritten = some "completed" :=
  (((claim_C5_theorem (some 5) [wOldMsg]).2.2 5 rfl).2.2).mp (by decide)

/-! ## Claim C6 — next-step dedup across runs -/

/-- Claim C6: inserting a next step whose description equals an
already-stored one up to letter case and surrounding whitespace is a no-op:
a second run with a case/whitespace variant leaves the stored rows exactly
as the first run left them (and a first run on a fresh description stores
exactly that one row). -/
theorem claim_C6_theorem (stored : List String) (d₁ d₂ : String)
    (h₁ : d₁ ≠ "") (h₂ : d₂ ≠ "") (hn : normalizeDesc d₁ = normalizeDesc d₂) :
    runNextSteps (runNextSteps stored [d₁]) [d₂] = runNextSteps stored [d₁] ∧
    (check_next_step_exists stored d₁ = false →
      runNextSteps stored [d₁] = stored ++ [d₁]) := by
  constructor
  · by_cases hc : check_next_step_exists stored d₁ = true
    · have hrun : runNextSteps stored [d₁] = stored := by
        simp [runNextSteps, nextStepsToInsert, List.filter_cons, hc]
      have hc₂ : check_next_step_exists stored d₂ = true := by
        rw [check_next_step_exists, if_neg h₂]
        rw [check_next_step_exists, if_neg h₁] at hc
        rw [List.any_eq_true] at hc ⊢
        obtain ⟨e, he, hp⟩ := hc
        simp only [Bool.and_eq_true, beq_iff_eq, bne_iff_ne] at hp ⊢
        exact ⟨e, he, hp.1, hn ▸ hp.2⟩
      rw [hrun]
      simp [runNextSteps, nextStepsToInsert, List.filter_cons, hc₂]
    · have hc' : check_next_step_exists stored d₁ = false :=
        Bool.eq_false_iff.mpr hc
      have hrun : runNextSteps stored [d₁] = stored ++ [d₁] := by
        simp [runNextSteps, nextStepsToInsert, List.filter_cons, hc', h₁]
      rw [hrun]
      have hc₂ : check_next_step_exists (stored ++ [d₁]) d₂ = true := by
        rw [check_next_step_exists, if_neg h₂, List.any_eq_true]
        refine ⟨d₁, by simp, ?_⟩
        simp only [Bool.and_eq_true, beq_iff_eq, bne_iff_ne]
        exact ⟨by simpa using h₁, hn⟩
      simp [runNextSteps, nextStepsToInsert, List.filter_cons, hc₂]
  · intro h
    simp [runNextSteps, nextStepsToInsert, List.filter_cons, h, h₁]

/-- Witness for C6: `"Follow up with legal"` then `"follow up with legal  "`
leaves exactly the one row stored by the first run. -/
theorem claim_C6_witness :
    runNextSteps (runNextSteps [] ["Follow up with legal"]) ["follow up with legal  "] =
      runNextSteps [] ["Follow up with legal"] ∧
    (check_next_step_exists [] "Follow up with legal" = false →
      runNextSteps [] ["Follow up with legal"] = [] ++ ["Follow up with legal"]) :=
  claim_C6_theorem [] "Follow up with legal" "follow up with legal  "
    (by decide) (by decide) (by decide)

/-! ## Claim C10 — dedup checks only the store, not the batch -/

/-- Claim C10: the duplicate check compares only against rows already in the
store, not against other items of the same batch: two batch items that are
equal up to case and surrounding whitespace, neither matching a stored
description, are BOTH inserted. -/
theorem claim_C10_theorem (stored pre mid post : List String) (d₁ d₂ : String)
    (h₁ : d₁ ≠ "") (h₂ : d₂ ≠ "") (hn : normalizeDesc d₁ = normalizeDesc d₂)
    (hex : check_next_step_exists stored d₁ = false) :
    nextStepsToInsert stored (pre ++ d₁ :: mid ++ d₂ :: post) =
      nextStepsToInsert stored pre ++
        d₁ :: (nextStepsToInsert stored mid ++ d₂ :: nextStepsToInsert stored post) := by
  have hex₂ : check_next_step_exists stored d₂ = false := by
    rw [Bool.eq_false_iff]
    intro hc
    rw [check_next_step_exists, if_neg h₂, List.any_eq_true] at hc
    obtain ⟨e, he, hp⟩ := hc
    simp only [Bool.and_eq_true, beq_iff_eq, bne_iff_ne] at hp
    have : check_next_step_exists stored d₁ = true := by
      rw [check_next_step_exists, if_neg h₁, List.any_eq_true]
      simp only [Bool.and_eq_true, beq_iff_eq, bne_iff_ne]
      exact ⟨e, he, hp.1, hn ▸ hp.2⟩
    rw [this] at hex
    exact Bool.noConfusion hex
  simp [nextStepsToInsert, List.filter_append, List.filter_cons, h₁, h₂, hex, hex₂]

/-- Witness for C10: a batch with the two case/whitespace variants and an
empty store inserts both. -/
theorem claim_C10_witness :
    nextStepsToInsert [] ([] ++ "Follow up with legal" :: [] ++ "follow up with legal  " :: []) =
      nextStepsToInsert [] [] ++
        "Follow up with legal" ::
          (nextStepsToInsert [] [] ++ "follow up with legal  " :: nextStepsToInsert [] []) :=
  claim_C10_theorem [] [] [] [] "Follow up with legal" "follow up with legal  "
    (by decide) (by decide) (by decide) (by decide)

end Lighthouse
